import Mathlib

/-!
Verification development for the `news_pipeline` ingestion core.

The definitions below are a shallow embedding of the repository sources:
`src/news_pipeline/pipeline/ingestion.py` (parser registry and orchestrator),
`src/news_pipeline/parsers/text_parser.py` and `parsers/base.py` (text parser),
and the narrow persistence operations of `src/news_pipeline/crud.py` that the
orchestrator consumes.  File contents are byte lists, paths are segment lists,
and the database is an explicit record threaded through the run.  Python
`str` operations used by the sources (`splitlines`, `strip`, `title`,
`lower`, `replace`, `startswith`, `pathlib` name/stem/suffix) are embedded
faithfully at the ASCII/Latin-1 level the repository exercises.  The external
`chardet` detector and the Python codec machinery for encodings other than
the hard-coded `latin-1` fallback are oracles passed in as parameters.
-/

/-- Python `str.isspace` character class (the characters `str.strip` removes). -/
def isPySpace (c : Char) : Bool :=
  [' ', '\t', '\n', '\r', '\x0b', '\x0c', '\x1c', '\x1d', '\x1e', '\x1f',
   '\x85', '\xa0', '\u1680', '\u2000', '\u2001', '\u2002', '\u2003', '\u2004',
   '\u2005', '\u2006', '\u2007', '\u2008', '\u2009', '\u200a', '\u2028',
   '\u2029', '\u202f', '\u205f', '\u3000'].contains c

/-- Characters at which Python `str.splitlines` breaks a line (besides CRLF). -/
def isLineBreakChar (c : Char) : Bool :=
  ['\n', '\r', '\x0b', '\x0c', '\x1c', '\x1d', '\x1e', '\x85', '\u2028',
   '\u2029'].contains c

/-- Worker for `pySplitlines`, accumulating the current line. -/
def pySplitlinesGo : List Char → List Char → List (List Char)
  | [], acc => if acc.isEmpty then [] else [acc]
  | '\r' :: '\n' :: cs, acc => acc :: pySplitlinesGo cs []
  | c :: cs, acc =>
      if isLineBreakChar c then acc :: pySplitlinesGo cs []
      else pySplitlinesGo cs (acc ++ [c])

/-- Python `str.splitlines` (keepends false). -/
def pySplitlines (s : String) : List String :=
  (pySplitlinesGo s.toList []).map String.mk

/-- Python `str.strip` with no argument: drop leading and trailing whitespace. -/
def pyStrip (s : String) : String :=
  String.mk ((((s.toList.dropWhile isPySpace).reverse).dropWhile isPySpace).reverse)

/-- Worker for `pyTitle`: tracks whether the previous character was cased. -/
def pyTitleGo : List Char → Bool → List Char
  | [], _ => []
  | c :: cs, prevCased =>
      if c.isAlpha then
        (if prevCased then c.toLower else c.toUpper) :: pyTitleGo cs true
      else
        c :: pyTitleGo cs false

/-- Python `str.title` restricted to ASCII letters as the cased characters. -/
def pyTitle (s : String) : String :=
  String.mk (pyTitleGo s.toList false)

/-- Python `str.lower` restricted to ASCII case mapping. -/
def pyLower (s : String) : String :=
  String.mk (s.toList.map Char.toLower)

/-- Python `str.startswith` on code points. -/
def pyStartsWith (s pre : String) : Bool :=
  pre.toList.isPrefixOf s.toList

/-- Python string slicing `s[n:]` on code points. -/
def pyDrop (s : String) (n : Nat) : String :=
  String.mk (s.toList.drop n)

/-- Python `sep.join(xs)` on code points. -/
def pyJoin (sep : String) (xs : List String) : String :=
  String.mk (List.intercalate sep.toList (xs.map String.toList))

/-- Python `str.replace` for a single-character pattern and replacement,
which is how `text_parser.py` calls it. -/
def pyReplaceChar (s : String) (a b : Char) : String :=
  String.mk (s.toList.map (fun c => if c = a then b else c))

/-- Position of the last dot of a name, as in `str.rfind` used by `pathlib`. -/
def lastDotIdx (name : String) : Option Nat :=
  match name.toList.reverse.findIdx? (fun c => c == '.') with
  | none => none
  | some j => some (name.toList.length - 1 - j)

/-- The `pathlib.PurePath.suffix` rule: the final dotted component of the
name, empty when the only dot is leading or trailing or there is none. -/
def pySuffix (name : String) : String :=
  match lastDotIdx name with
  | none => ""
  | some i =>
      if 0 < i ∧ i < name.toList.length - 1 then String.mk (name.toList.drop i)
      else ""

/-- The `pathlib.PurePath.stem` rule: the name with `pySuffix` removed. -/
def pyStem (name : String) : String :=
  match lastDotIdx name with
  | none => name
  | some i =>
      if 0 < i ∧ i < name.toList.length - 1 then String.mk (name.toList.take i)
      else name

/-- A filesystem path, as the list of its segments from the root. -/
abbrev FsPath := List String

/-- Final segment of a path, i.e. `pathlib.PurePath.name`. -/
def pathName (p : FsPath) : String :=
  (p.getLast?).getD ""

/-- Rendering of a resolved absolute path, i.e. `str(path.resolve())` in
`ingestion.py`, used as the idempotency key of an Article. -/
def pathStr (p : FsPath) : String :=
  "/" ++ String.mk (List.intercalate ['/'] (p.map String.toList))

/-- One filesystem entry: a regular file with its bytes, or a directory. -/
inductive FSEntry where
  | file (content : List Nat)
  | dir
deriving DecidableEq

/-- A filesystem: a finite map from absolute paths to entries, listed in the
stable traversal order in which `Path.rglob` visits them. -/
abbrev FileSystem := List (FsPath × FSEntry)

/-- Lookup of a path in the filesystem. -/
def fsLookup (fs : FileSystem) (p : FsPath) : Option FSEntry :=
  (fs.find? (fun e => e.1 == p)).map (fun e => e.2)

/-- True when the final segment of the path contains a dot, which is exactly
the `fnmatch` meaning of the `*.*` pattern `ingestion.py` passes to `rglob`. -/
def nameHasDot (p : FsPath) : Bool :=
  (pathName p).toList.contains '.'

/-- True when `p` lies strictly below the directory `base`. -/
def strictlyUnder (base p : FsPath) : Bool :=
  base.isPrefixOf p && decide (base.length < p.length)

/-- The list `source_path.rglob("*.*")` produces in `ingestion.py`: every
entry strictly below `base` (directories included, since no file filter is
applied) whose name contains a dot, in traversal order. -/
def rglobStarDotStar (fs : FileSystem) (base : FsPath) : List FsPath :=
  (fs.filter (fun e => strictlyUnder base e.1 && nameHasDot e.1)).map (fun e => e.1)

/-- The candidate-file resolution of `ingest_source` steps 3: `none` models
the fatal branch taken when `source_path.exists()` is false; a single
existing file yields exactly itself; a directory yields its `rglob` list. -/
def candidateFiles (fs : FileSystem) (url : FsPath) : Option (List FsPath) :=
  match fsLookup fs url with
  | none => none
  | some (FSEntry.file _) => some [url]
  | some FSEntry.dir => some (rglobStarDotStar fs url)

/-- Reading a file in binary mode, as `file_path.open("rb")` followed by
`read()`: a directory raises, a missing path raises. -/
def readFileBytes (fs : FileSystem) (p : FsPath) : Except String (List Nat) :=
  match fsLookup fs p with
  | some (FSEntry.file bs) => Except.ok bs
  | some FSEntry.dir => Except.error "IsADirectoryError"
  | none => Except.error "FileNotFoundError"

/-- The canonical parser output of `parsers/base.py` (`ParsedArticle`
TypedDict): title, content text, and the open attribute mapping. -/
structure ParsedArticle where
  title : String
  content_text : String
  attributes : List (String × String)
deriving DecidableEq

/-- Decoding a byte sequence as Latin-1, total on genuine bytes: every value
below 256 maps to the Unicode code point of the same number.  Values outside
the byte range (impossible for data read from a file) are rejected. -/
def latin1Decode (raw : List Nat) : Option String :=
  if raw.all (fun b => b < 256) then
    some (String.mk (raw.map (fun b => Char.ofNat b)))
  else none

/-- An encoding oracle stands for the Python codec machinery: given an
encoding name and the raw bytes it returns the decoded text, or `none` when
the codec raises `UnicodeDecodeError` or `LookupError`. -/
abbrev CodecOracle := String → List Nat → Option String

/-- A detection oracle stands for `chardet.detect(raw)["encoding"]`. -/
abbrev DetectOracle := List Nat → Option String

/-- Title and content derivation of `TextParser.parse` after decoding: a
leading markdown H1 line supplies the title and is consumed, otherwise the
filename stem with separators spaced and title-cased supplies it; the
remaining lines joined by newlines and stripped form the content; the
attributes record the source filename and the encoding used. -/
def deriveRecord (name stem encodingUsed content : String) : ParsedArticle :=
  let lines := pySplitlines content
  let headline :=
    match lines with
    | l0 :: _ => if pyStartsWith l0 "# " then some l0 else none
    | [] => none
  match headline with
  | some l0 =>
      { title := pyStrip (pyDrop l0 2)
        content_text := pyStrip (pyJoin "\n" (lines.drop 1))
        attributes := [("source_filename", name), ("detected_encoding", encodingUsed)] }
  | none =>
      { title := pyTitle (pyReplaceChar (pyReplaceChar stem '-' ' ') '_' ' ')
        content_text := pyStrip (pyJoin "\n" (lines.drop 0))
        attributes := [("source_filename", name), ("detected_encoding", encodingUsed)] }

/-- The whole of `TextParser.parse` on the raw bytes of a file named `name`
with stem `stem`: detect an encoding (defaulting to utf-8), try to decode
with it, fall back to Latin-1 when that raises, then derive the record.  The
error branch is reachable only for values outside the byte range. -/
def TextParser.parse (codecs : CodecOracle) (detect : DetectOracle)
    (name stem : String) (raw : List Nat) : Except String ParsedArticle :=
  let encoding := (detect raw).getD "utf-8"
  match codecs encoding raw with
  | some content => Except.ok (deriveRecord name stem encoding content)
  | none =>
      match latin1Decode raw with
      | some content => Except.ok (deriveRecord name stem "latin-1" content)
      | none => Except.error "UnicodeDecodeError"

/-- The extension list `TextParser.get_supported_extensions` returns. -/
def TextParser.supportedExtensions : List String := [".txt", ".md"]

/-- A parser variant as the registry sees it: an identifier for the class,
and the extensions its instance claims. -/
structure ParserVariant where
  pid : Nat
  exts : List String
deriving DecidableEq

/-- The module-level `ALL_PARSERS` list of `ingestion.py`: the sole
registered class is `TextParser`, given identifier 0. -/
def ALL_PARSERS : List ParserVariant :=
  [{ pid := 0, exts := TextParser.supportedExtensions }]

/-- Lookup in the extension dictionary. -/
def dictLookup : List (String × Nat) → String → Option Nat
  | [], _ => none
  | (k, v) :: rest, key => if k = key then some v else dictLookup rest key

/-- Insertion into the extension dictionary with Python `dict` semantics:
an existing key keeps its position and is overwritten, a new key is
appended. -/
def dictInsert : List (String × Nat) → String → Nat → List (String × Nat)
  | [], key, v => [(key, v)]
  | (k, w) :: rest, key, v =>
      if k = key then (key, v) :: rest else (k, w) :: dictInsert rest key v

/-- The diagnostic `get_parser_registry` prints to stderr on an extension
collision (quotes around the extension elided). -/
def collisionWarning (ext : String) : String :=
  "Warning: Overwriting parser for extension " ++ ext

/-- Registering one extension of one parser: warn if the key collides, then
overwrite, exactly as the inner loop of `get_parser_registry`. -/
def registerExt (pid : Nat) (acc : List (String × Nat) × List String)
    (ext : String) : List (String × Nat) × List String :=
  let warnings :=
    if (dictLookup acc.1 ext).isSome then acc.2 ++ [collisionWarning ext]
    else acc.2
  (dictInsert acc.1 ext pid, warnings)

/-- Registering one parser class: fold its claimed extensions. -/
def registerParserClass (acc : List (String × Nat) × List String)
    (p : ParserVariant) : List (String × Nat) × List String :=
  p.exts.foldl (registerExt p.pid) acc

/-- The registry construction of `get_parser_registry`, returning the
extension dictionary together with the collision warnings it printed. -/
def buildRegistry (parsers : List ParserVariant) :
    List (String × Nat) × List String :=
  parsers.foldl registerParserClass ([], [])

/-- The registry value `ingestion.py` actually builds at run time. -/
def get_parser_registry : List (String × Nat) × List String :=
  buildRegistry ALL_PARSERS

/-- A stored Article, with the fields the orchestrator writes.  Modelled
from the spec for the field set: `schemas.ArticleCreate` is referenced by
`ingestion.py` but the `schemas` module is absent from the repository, so
the fields follow the constructor call in `ingestion.py` and the canonical
naming of section 3 of the specification (`source_url` is the resolved-path
uniqueness key, `metadata` carries the parser attributes). -/
structure Article where
  source_id : Nat
  title : String
  content_text : String
  source_url : String
  metadata : List (String × String)
deriving DecidableEq

/-- A configured Source as the orchestrator reads it: its id, display name,
and the location the code accesses as `source.url`, kept here as a resolved
segment path. -/
structure Source where
  id : Nat
  name : String
  url : FsPath
deriving DecidableEq

/-- A JobRun record as in `models.py` (the fields the claims mention). -/
structure JobRun where
  job_name : String
  status : String
  processed_count : Nat
  error_count : Nat
deriving DecidableEq

/-- The database state the run can observe and mutate. -/
structure Db where
  sources : List Source
  articles : List Article
  jobRuns : List JobRun
deriving DecidableEq

/-- The lookup `crud.get_source` performs: primary-key access. -/
def get_source (db : Db) (source_id : Nat) : Option Source :=
  db.sources.find? (fun s => s.id == source_id)

/-- Modelled from the spec: `crud.get_article_by_source_url` is called by
`ingestion.py` but absent from `crud.py`; section 6 of the specification
gives it as the uniqueness-key query returning the Article or none. -/
def get_article_by_source_url (articles : List Article) (url : String) :
    Option Article :=
  articles.find? (fun a => a.source_url == url)

/-- The insertion `crud.create_article` performs: add and commit one row. -/
def create_article (articles : List Article) (a : Article) : List Article :=
  articles ++ [a]

/-- A Python value as it flows through step 4d: a string or an attribute
mapping. -/
inductive PyValue where
  | str (s : String)
  | mapping (m : List (String × String))
deriving DecidableEq

/-- String content of a value (only reached when the value is a string). -/
def PyValue.asStr : PyValue → String
  | PyValue.str s => s
  | PyValue.mapping _ => ""

/-- Mapping content of a value (only reached when it is a mapping). -/
def PyValue.asMapping : PyValue → List (String × String)
  | PyValue.mapping m => m
  | PyValue.str _ => []

/-- Runtime subscripting of the dict `TextParser.parse` returns: the
`ParsedArticle` TypedDict of `base.py` holds exactly the keys `title`,
`content_text` and `attributes`; subscripting any other key raises a
KeyError. -/
def ParsedArticle.subscript (p : ParsedArticle) (k : String) :
    Except String PyValue :=
  if k = "title" then Except.ok (PyValue.str p.title)
  else if k = "content_text" then Except.ok (PyValue.str p.content_text)
  else if k = "attributes" then Except.ok (PyValue.mapping p.attributes)
  else Except.error ("KeyError: " ++ k)

/-- The ArticleCreate payload of step 4d as it would be assembled if every
subscript succeeded.  Modelled from the spec for the field set, since the
`schemas` module is absent from the repository; the values are the
subscripted dict entries and the resolved-path key. -/
def mkArticle (srcId : Nat) (key : String) (titleV contentV mdV : PyValue) :
    Article :=
  { source_id := srcId
    title := titleV.asStr
    content_text := contentV.asStr
    source_url := key
    metadata := mdV.asMapping }

/-- The call of step 4e as `ingestion.py` writes it, with the keyword
arguments `db`, `article` and `source_id`: `crud.create_article` in
`crud.py` accepts only `db` and `article`, so the extra keyword raises a
TypeError before any insertion; an insertion happens only in a call without
the extra keyword. -/
def create_article_call (arts : List Article) (a : Article)
    (source_id_kwarg : Option Nat) : Except String (List Article) :=
  match source_id_kwarg with
  | some _ => Except.error
      "TypeError: create_article got an unexpected keyword argument source_id"
  | none => Except.ok (create_article arts a)

/-- The mutable state of the per-file loop of `ingest_source`: the live
articles table, the two counters the code keeps, the per-file failure lines
printed to stderr, and the per-file progress lines printed to stdout. -/
structure LoopState where
  articles : List Article
  created : Nat
  skipped : Nat
  errors : List String
  parseLog : List String
deriving DecidableEq

/-- The lowercased extension `file_path.suffix.lower()` of step 4a. -/
def extKey (path : FsPath) : String :=
  pyLower (pySuffix (pathName path))

/-- The try-block body, steps 4c through 4e of `ingest_source`: read and
parse the file (every registered class is `TextParser`, the only member of
`ALL_PARSERS`), build the ArticleCreate payload by subscripting the parsed
dict — the source subscripts `metadata` while the parser emits
`attributes`, so this raises KeyError for every parsed file — and call
`crud.create_article` with the extra `source_id` keyword, which raises
TypeError; any raised error is caught by the surrounding except clause.
This function is steps 4d and 4e; the subscripts model the dict accesses of
the ArticleCreate construction. -/
def buildAndSave (arts : List Article) (srcId : Nat) (key : String)
    (parsed : ParsedArticle) : Except String (List Article) :=
  match parsed.subscript "title" with
  | Except.error e => Except.error e
  | Except.ok titleV =>
    match parsed.subscript "content_text" with
    | Except.error e => Except.error e
    | Except.ok contentV =>
      match parsed.subscript "metadata" with
      | Except.error e => Except.error e
      | Except.ok mdV =>
          create_article_call arts (mkArticle srcId key titleV contentV mdV)
            (some srcId)

/-- The try-block body as a whole: read, parse, then build and save. -/
def tryParseAndSave (codecs : CodecOracle) (detect : DetectOracle)
    (fs : FileSystem) (srcId : Nat) (arts : List Article) (path : FsPath) :
    Except String (List Article) :=
  match readFileBytes fs path with
  | Except.error e => Except.error e
  | Except.ok raw =>
    match TextParser.parse codecs detect (pathName path)
        (pyStem (pathName path)) raw with
    | Except.error e => Except.error e
    | Except.ok parsed => buildAndSave arts srcId (pathStr path) parsed

/-- Steps 4a through 4e of `ingest_source` for one candidate file: filter by
registered extension, check the idempotency key, otherwise announce parsing,
run the parser inside the try block and either persist the new Article or
log the failure and continue. -/
def processFile (codecs : CodecOracle) (detect : DetectOracle)
    (registry : List (String × Nat)) (fs : FileSystem) (srcId : Nat)
    (s : LoopState) (path : FsPath) : LoopState :=
  let name := pathName path
  match dictLookup registry (extKey path) with
  | none => s
  | some _pid =>
      let key := pathStr path
      match get_article_by_source_url s.articles key with
      | some _ => { s with skipped := s.skipped + 1 }
      | none =>
          let s1 := { s with parseLog := s.parseLog ++ ["Parsing: " ++ name] }
          match tryParseAndSave codecs detect fs srcId s.articles path with
          | Except.ok newArts =>
              { s1 with
                articles := newArts
                created := s1.created + 1 }
          | Except.error e =>
              { s1 with
                errors := s1.errors ++
                  ["Failed to parse or save " ++ name ++ ": " ++ e] }

/-- The per-file loop of step 4. -/
def processFiles (codecs : CodecOracle) (detect : DetectOracle)
    (registry : List (String × Nat)) (fs : FileSystem) (srcId : Nat)
    (s : LoopState) (files : List FsPath) : LoopState :=
  files.foldl (processFile codecs detect registry fs srcId) s

/-- Everything one invocation of `ingest_source` leaves behind: the article
table and JobRun table after the run, the two reported counters, the
failure and progress logs, and the fatal diagnostic when the run aborted. -/
structure RunResult where
  articles : List Article
  jobRuns : List JobRun
  created : Nat
  skipped : Nat
  errors : List String
  parseLog : List String
  fatal : Option String
deriving DecidableEq

/-- The number of per-file failures a run reported: `ingest_source` keeps no
failure counter variable, but prints exactly one failure line per failing
file, so the length of that log is the observable failure count. -/
def failedCount (r : RunResult) : Nat := r.errors.length

/-- The whole of `ingest_source`, parametrised by the parser list the module
holds in `ALL_PARSERS` and by the two oracles of the text parser.  The three
early returns are the fatal branches; otherwise the candidate files are
resolved and the per-file loop runs to completion. -/
def ingest_source (parsers : List ParserVariant) (codecs : CodecOracle)
    (detect : DetectOracle) (db : Db) (fs : FileSystem) (source_id : Nat) :
    RunResult :=
  match get_source db source_id with
  | none =>
      { articles := db.articles, jobRuns := db.jobRuns, created := 0,
        skipped := 0, errors := [], parseLog := [],
        fatal := some ("Error: Source with id " ++ toString source_id ++
          " not found.") }
  | some source =>
      let registry := (buildRegistry parsers).1
      if registry.isEmpty then
        { articles := db.articles, jobRuns := db.jobRuns, created := 0,
          skipped := 0, errors := [], parseLog := [],
          fatal := some "Error: No parsers are registered." }
      else
        match candidateFiles fs source.url with
        | none =>
            { articles := db.articles, jobRuns := db.jobRuns, created := 0,
              skipped := 0, errors := [], parseLog := [],
              fatal := some ("Error: Source path does not exist: " ++
                pathStr source.url) }
        | some files =>
            let init : LoopState :=
              { articles := db.articles, created := 0, skipped := 0,
                errors := [], parseLog := [] }
            let final := processFiles codecs detect registry fs source.id init files
            { articles := final.articles, jobRuns := db.jobRuns,
              created := final.created, skipped := final.skipped,
              errors := final.errors, parseLog := final.parseLog,
              fatal := none }

deriving instance DecidableEq for Except

/-- An encoding oracle on which every codec lookup fails, so decoding always
takes the Latin-1 fallback; adequate for ASCII fixtures. -/
def codecs0 : CodecOracle := fun _ _ => none

/-- A detection oracle on which chardet reports no encoding. -/
def detect0 : DetectOracle := fun _ => none

/-- Byte rendering of an ASCII string fixture. -/
def asciiBytes (s : String) : List Nat := s.toList.map Char.toNat

example : pySplitlines "a\r\nb\nc" = ["a", "b", "c"] := by decide
example : pyTitle "my report" = "My Report" := by decide
example : pySuffix "my-report.txt" = ".txt" := by decide
example : pyStem "my-report.txt" = "my-report" := by decide
example : pySuffix ".bashrc" = "" := by decide
example : pySuffix "foo." = "" := by decide
example : pySuffix "archive.tar.gz" = ".gz" := by decide

example :
    TextParser.parse codecs0 detect0 "my-report.txt" "my-report"
      (asciiBytes "Some body text.") =
    Except.ok
      { title := "My Report", content_text := "Some body text.",
        attributes := [("source_filename", "my-report.txt"),
                       ("detected_encoding", "latin-1")] } := by decide

example :
    TextParser.parse codecs0 detect0 "q.txt" "q"
      (asciiBytes "# Quarterly Results\nBody line.") =
    Except.ok
      { title := "Quarterly Results", content_text := "Body line.",
        attributes := [("source_filename", "q.txt"),
                       ("detected_encoding", "latin-1")] } := by decide

/-- A three-file fixture: two parseable text files and, in second traversal
position, a directory whose dotted name matches the rglob pattern, so that
opening it raises inside the per-file try block. -/
def fsA : FileSystem :=
  [(["data"], FSEntry.dir),
   (["data", "a.txt"], FSEntry.file (asciiBytes "Alpha body")),
   (["data", "bad.txt"], FSEntry.dir),
   (["data", "c.txt"], FSEntry.file (asciiBytes "# Gamma\nGamma body"))]

/-- A database fixture holding one local source pointing at `data`. -/
def dbA : Db :=
  { sources := [{ id := 1, name := "local", url := ["data"] }],
    articles := [], jobRuns := [] }

/-- The run of `ingest_source` over the three-file fixture. -/
def runA : RunResult := ingest_source ALL_PARSERS codecs0 detect0 dbA fsA 1

lemma processFile_unsupported {codecs detect registry fs srcId s path}
    (h : dictLookup registry (extKey path) = none) :
    processFile codecs detect registry fs srcId s path = s := by
  simp [processFile, h]

lemma processFile_duplicate {codecs detect registry fs srcId s path pid a}
    (h : dictLookup registry (extKey path) = some pid)
    (ha : get_article_by_source_url s.articles (pathStr path) = some a) :
    processFile codecs detect registry fs srcId s path =
      { s with skipped := s.skipped + 1 } := by
  simp [processFile, h, ha]

lemma processFile_failed {codecs detect registry fs srcId s path pid e}
    (h : dictLookup registry (extKey path) = some pid)
    (hn : get_article_by_source_url s.articles (pathStr path) = none)
    (hp : tryParseAndSave codecs detect fs srcId s.articles path =
      Except.error e) :
    processFile codecs detect registry fs srcId s path =
      { s with
        parseLog := s.parseLog ++ ["Parsing: " ++ pathName path]
        errors := s.errors ++
          ["Failed to parse or save " ++ pathName path ++ ": " ++ e] } := by
  simp [processFile, h, hn, hp]

lemma processFiles_nil {codecs detect registry fs srcId s} :
    processFiles codecs detect registry fs srcId s [] = s := rfl

lemma processFiles_cons {codecs detect registry fs srcId s path rest} :
    processFiles codecs detect registry fs srcId s (path :: rest) =
      processFiles codecs detect registry fs srcId
        (processFile codecs detect registry fs srcId s path) rest := rfl

lemma processFiles_append {codecs detect registry fs srcId s l1 l2} :
    processFiles codecs detect registry fs srcId s (l1 ++ l2) =
      processFiles codecs detect registry fs srcId
        (processFiles codecs detect registry fs srcId s l1) l2 := by
  simp [processFiles, List.foldl_append]

/-- C3: for every candidate file with a registered extension whose
idempotency key (the resolved absolute path) already has a stored Article,
the orchestrator increments only the skipped counter: the article table is
unchanged in every field, no parsing announcement is made (the parser is not
invoked), no error is logged, and no new Article is inserted. -/
theorem claim_C3_duplicate_only_skips :
    ∀ (codecs : CodecOracle) (detect : DetectOracle)
      (registry : List (String × Nat)) (fs : FileSystem) (srcId : Nat)
      (s : LoopState) (path : FsPath) (pid : Nat) (a : Article),
    dictLookup registry (extKey path) = some pid →
    get_article_by_source_url s.articles (pathStr path) = some a →
    processFile codecs detect registry fs srcId s path =
      { s with skipped := s.skipped + 1 } :=
  fun _ _ _ _ _ _ _ _ _ h ha => processFile_duplicate h ha

/-- Witness for C3 at a concrete duplicate: the article for `/data/a.txt`
already exists, and processing that candidate only bumps the skipped count. -/
theorem claim_C3_witness :
    processFile codecs0 detect0 get_parser_registry.1 fsA 1
      { articles := [{ source_id := 1, title := "T", content_text := "C",
                       source_url := "/data/a.txt", metadata := [] }],
        created := 0, skipped := 0, errors := [], parseLog := [] }
      ["data", "a.txt"] =
      { articles := [{ source_id := 1, title := "T", content_text := "C",
                       source_url := "/data/a.txt", metadata := [] }],
        created := 0, skipped := 1, errors := [], parseLog := [] } :=
  claim_C3_duplicate_only_skips codecs0 detect0 get_parser_registry.1 fsA 1 _ _
    0 { source_id := 1, title := "T", content_text := "C",
        source_url := "/data/a.txt", metadata := [] }
    (by decide) (by decide)

/-- C8: a candidate file whose extension has no registered parser leaves the
loop state entirely unchanged: it is excluded from the created, skipped and
failed accounting, and neither the parser nor the persistence layer is
invoked for it. -/
theorem claim_C8_unsupported_excluded :
    ∀ (codecs : CodecOracle) (detect : DetectOracle)
      (registry : List (String × Nat)) (fs : FileSystem) (srcId : Nat)
      (s : LoopState) (path : FsPath),
    dictLookup registry (extKey path) = none →
    processFile codecs detect registry fs srcId s path = s :=
  fun _ _ _ _ _ _ _ h => processFile_unsupported h

/-- Witness for C8: `image.png` has no registered parser and processing it
changes nothing. -/
theorem claim_C8_witness :
    dictLookup get_parser_registry.1 (extKey ["data", "image.png"]) = none ∧
    processFile codecs0 detect0 get_parser_registry.1 fsA 1
      { articles := [], created := 0, skipped := 0, errors := [], parseLog := [] }
      ["data", "image.png"] =
      { articles := [], created := 0, skipped := 0, errors := [], parseLog := [] } :=
  ⟨by decide,
   claim_C8_unsupported_excluded codecs0 detect0 get_parser_registry.1 fsA 1 _ _
     (by decide)⟩

/-- C1 is contradicted by the code: on the three-file fixture, where only
the second candidate raises, every supported candidate in fact fails — the
article construction of step 4d subscripts the key `metadata`, which the
parser never emits, and step 4e passes an extra keyword argument to
`crud.create_article` — so the run ends with zero Articles created and
three logged failures, not created = 2 and failed = 1.  The run still does
not abort: every candidate is visited and each failing file contributes
exactly one failure line. -/
theorem claim_C1_code_bug_eval :
    runA.fatal = none ∧ runA.created = 0 ∧ runA.skipped = 0 ∧
    failedCount runA = 3 ∧ runA.articles = [] ∧
    runA.parseLog = ["Parsing: a.txt", "Parsing: bad.txt", "Parsing: c.txt"] ∧
    runA.errors =
      ["Failed to parse or save a.txt: KeyError: metadata",
       "Failed to parse or save bad.txt: IsADirectoryError",
       "Failed to parse or save c.txt: KeyError: metadata"] := by decide


/-- C7: each of the three fatal conditions — source id not found, empty
parser registry, source location not existing — makes the run abort with a
reported diagnostic, leaving the article and JobRun tables untouched, all
counters at zero and both per-file logs empty: no per-file processing
occurs. -/
theorem claim_C7_fatal_aborts :
    ∀ (parsers : List ParserVariant) (codecs : CodecOracle)
      (detect : DetectOracle) (db : Db) (fs : FileSystem) (sid : Nat),
    (get_source db sid = none ∨ (buildRegistry parsers).1 = [] ∨
      (∃ src, get_source db sid = some src ∧ candidateFiles fs src.url = none)) →
    ((ingest_source parsers codecs detect db fs sid).fatal.isSome = true ∧
     (ingest_source parsers codecs detect db fs sid).articles = db.articles ∧
     (ingest_source parsers codecs detect db fs sid).jobRuns = db.jobRuns ∧
     (ingest_source parsers codecs detect db fs sid).created = 0 ∧
     (ingest_source parsers codecs detect db fs sid).skipped = 0 ∧
     (ingest_source parsers codecs detect db fs sid).errors = [] ∧
     (ingest_source parsers codecs detect db fs sid).parseLog = []) := by
  intro parsers codecs detect db fs sid h
  unfold ingest_source
  cases hs : get_source db sid with
  | none => simp
  | some src =>
      cases hreg : (buildRegistry parsers).1.isEmpty with
      | true => simp [hreg]
      | false =>
          rcases h with h1 | h2 | h3
          · rw [hs] at h1; exact absurd h1 (by simp)
          · rw [h2] at hreg; simp at hreg
          · obtain ⟨src2, hs2, hc⟩ := h3
            rw [hs] at hs2
            injection hs2 with hse
            subst hse
            simp [hreg, hc]

/-- Witness for C7: ingesting the missing source id 2 against the fixture
database aborts fatally with no side effects. -/
theorem claim_C7_witness :
    (get_source dbA 2 = none ∨ (buildRegistry ALL_PARSERS).1 = [] ∨
      (∃ src, get_source dbA 2 = some src ∧ candidateFiles fsA src.url = none)) ∧
    (ingest_source ALL_PARSERS codecs0 detect0 dbA fsA 2).fatal.isSome = true ∧
    (ingest_source ALL_PARSERS codecs0 detect0 dbA fsA 2).articles = dbA.articles ∧
    (ingest_source ALL_PARSERS codecs0 detect0 dbA fsA 2).jobRuns = dbA.jobRuns ∧
    (ingest_source ALL_PARSERS codecs0 detect0 dbA fsA 2).created = 0 ∧
    (ingest_source ALL_PARSERS codecs0 detect0 dbA fsA 2).skipped = 0 ∧
    (ingest_source ALL_PARSERS codecs0 detect0 dbA fsA 2).errors = [] ∧
    (ingest_source ALL_PARSERS codecs0 detect0 dbA fsA 2).parseLog = [] :=
  ⟨Or.inl (by decide),
   claim_C7_fatal_aborts ALL_PARSERS codecs0 detect0 dbA fsA 2 (Or.inl (by decide))⟩

/-- C10: on any genuine byte sequence the decoding step of the text parser
is total: parsing always succeeds, Latin-1 decoding succeeds on every byte
sequence, and whenever the codec for the detected encoding (or utf-8 when
detection yields none) raises, the Latin-1 fallback is the content actually
used, so the returned record carries all three fields. -/
theorem claim_C10_decoding_total :
    ∀ (codecs : CodecOracle) (detect : DetectOracle) (name stem : String)
      (raw : List Nat),
    (∀ b ∈ raw, b < 256) →
    (∃ rec, TextParser.parse codecs detect name stem raw = Except.ok rec) ∧
    latin1Decode raw = some (String.mk (raw.map (fun b => Char.ofNat b))) ∧
    (codecs ((detect raw).getD "utf-8") raw = none →
      TextParser.parse codecs detect name stem raw =
        Except.ok (deriveRecord name stem "latin-1"
          (String.mk (raw.map (fun b => Char.ofNat b))))) := by
  intro codecs detect name stem raw hb
  have hall : raw.all (fun b => decide (b < 256)) = true := by
    rw [List.all_eq_true]
    intro b hbm
    exact decide_eq_true (hb b hbm)
  have hl : latin1Decode raw =
      some (String.mk (raw.map (fun b => Char.ofNat b))) := by
    simp only [latin1Decode, hall, if_true]
  refine ⟨?_, hl, ?_⟩
  · cases hc : codecs ((detect raw).getD "utf-8") raw with
    | some content =>
        exact ⟨deriveRecord name stem ((detect raw).getD "utf-8") content, by
          simp only [TextParser.parse]; rw [hc]⟩
    | none =>
        exact ⟨deriveRecord name stem "latin-1"
            (String.mk (raw.map (fun b => Char.ofNat b))), by
          simp only [TextParser.parse]; rw [hc, hl]⟩
  · intro hc
    simp only [TextParser.parse]
    rw [hc, hl]

/-- Witness for C10 at a concrete byte sequence on which the codec oracle
fails: the Latin-1 fallback decodes it and parsing succeeds. -/
theorem claim_C10_witness :
    (∃ rec, TextParser.parse codecs0 detect0 "n.txt" "n" [35, 255, 10] =
      Except.ok rec) ∧
    latin1Decode [35, 255, 10] =
      some (String.mk ([35, 255, 10].map (fun b => Char.ofNat b))) ∧
    (codecs0 ((detect0 [35, 255, 10]).getD "utf-8") [35, 255, 10] = none →
      TextParser.parse codecs0 detect0 "n.txt" "n" [35, 255, 10] =
        Except.ok (deriveRecord "n.txt" "n" "latin-1"
          (String.mk ([35, 255, 10].map (fun b => Char.ofNat b))))) := by
  have h := claim_C10_decoding_total codecs0 detect0 "n.txt" "n" [35, 255, 10]
    (by decide)
  exact ⟨h.1, h.2.1, fun hc => h.2.2 hc⟩

/-- C6: the text parser takes the title from a leading markdown H1 line when
the first line starts with a hash and a space — stripping the heading text
and excluding that line from the content — and otherwise from the filename
stem with dashes and underscores spaced out and title-cased; the content is
the remaining lines joined by newlines and stripped.  Concretely,
`my-report.txt` without a heading parses to title `My Report`, and a file
whose first line is the Quarterly Results heading parses to that title with
the heading line excluded from the content. -/
theorem claim_C6_title_derivation :
    (∀ (name stem enc content : String) (l0 : String) (rest : List String),
      pySplitlines content = l0 :: rest →
      pyStartsWith l0 "# " = true →
      (deriveRecord name stem enc content).title = pyStrip (pyDrop l0 2) ∧
      (deriveRecord name stem enc content).content_text =
        pyStrip (pyJoin "\n" rest)) ∧
    (∀ (name stem enc content : String),
      (∀ l0 rest, pySplitlines content = l0 :: rest →
        pyStartsWith l0 "# " = false) →
      (deriveRecord name stem enc content).title =
        pyTitle (pyReplaceChar (pyReplaceChar stem '-' ' ') '_' ' ') ∧
      (deriveRecord name stem enc content).content_text =
        pyStrip (pyJoin "\n" (pySplitlines content))) ∧
    TextParser.parse codecs0 detect0 "my-report.txt" "my-report"
      (asciiBytes "Some body text.") =
      Except.ok
        { title := "My Report", content_text := "Some body text.",
          attributes := [("source_filename", "my-report.txt"),
                         ("detected_encoding", "latin-1")] } ∧
    TextParser.parse codecs0 detect0 "q.txt" "q"
      (asciiBytes "# Quarterly Results\nBody line.") =
      Except.ok
        { title := "Quarterly Results", content_text := "Body line.",
          attributes := [("source_filename", "q.txt"),
                         ("detected_encoding", "latin-1")] } := by
  refine ⟨?_, ?_, by decide, by decide⟩
  · intro name stem enc content l0 rest hsplit hstart
    simp [deriveRecord, hsplit, hstart]
  · intro name stem enc content h
    cases hsplit : pySplitlines content with
    | nil => simp [deriveRecord, hsplit]
    | cons l0 rest =>
        have hstart := h l0 rest hsplit
        simp [deriveRecord, hsplit, hstart]

/-- Witness for C6 at the concrete heading file: applying the heading clause
to the Quarterly Results content. -/
theorem claim_C6_witness :
    (deriveRecord "q.txt" "q" "latin-1" "# Quarterly Results\nBody line.").title =
      pyStrip (pyDrop "# Quarterly Results" 2) ∧
    (deriveRecord "q.txt" "q" "latin-1"
        "# Quarterly Results\nBody line.").content_text =
      pyStrip (pyJoin "\n" ["Body line."]) :=
  claim_C6_title_derivation.1 "q.txt" "q" "latin-1"
    "# Quarterly Results\nBody line." "# Quarterly Results" ["Body line."]
    (by decide) (by decide)

lemma dictLookup_insert_self (d : List (String × Nat)) (k : String) (v : Nat) :
    dictLookup (dictInsert d k v) k = some v := by
  induction d with
  | nil => simp [dictInsert, dictLookup]
  | cons hd tl ih =>
      obtain ⟨k2, v2⟩ := hd
      by_cases h : k2 = k
      · subst h; simp [dictInsert, dictLookup]
      · simp [dictInsert, dictLookup, h, ih]

lemma dictLookup_insert_ne (d : List (String × Nat)) {k2 k : String} (v : Nat)
    (h : k2 ≠ k) : dictLookup (dictInsert d k2 v) k = dictLookup d k := by
  induction d with
  | nil => simp [dictInsert, dictLookup, h]
  | cons hd tl ih =>
      obtain ⟨k3, v3⟩ := hd
      by_cases h3 : k3 = k2
      · subst h3; simp [dictInsert, dictLookup, h]
      · simp [dictInsert, dictLookup, h3, ih]

lemma isSome_dictLookup_insert (d : List (String × Nat)) (k k2 : String)
    (v : Nat) (h : (dictLookup d k).isSome = true) :
    (dictLookup (dictInsert d k2 v) k).isSome = true := by
  by_cases hk : k2 = k
  · subst hk; rw [dictLookup_insert_self]; rfl
  · rw [dictLookup_insert_ne d v hk]; exact h

lemma lookup_foldExts_not_mem {pid : Nat} {exts : List String} {ext : String}
    (h : ext ∉ exts) :
    ∀ acc, dictLookup ((exts.foldl (registerExt pid) acc).1) ext =
      dictLookup acc.1 ext := by
  induction exts with
  | nil => intro acc; rfl
  | cons e rest ih =>
      intro acc
      have hne : e ≠ ext := fun hc => h (hc ▸ List.mem_cons_self e rest)
      have hrest : ext ∉ rest := fun hc => h (List.mem_cons_of_mem e hc)
      rw [List.foldl_cons, ih hrest]
      exact dictLookup_insert_ne acc.1 pid hne

lemma lookup_foldExts_mem {pid : Nat} {exts : List String} {ext : String}
    (h : ext ∈ exts) :
    ∀ acc, dictLookup ((exts.foldl (registerExt pid) acc).1) ext = some pid := by
  induction exts with
  | nil => cases h
  | cons e rest ih =>
      intro acc
      by_cases hrest : ext ∈ rest
      · rw [List.foldl_cons]; exact ih hrest _
      · have he : e = ext := by
          rcases List.mem_cons.mp h with h1 | h2
          · exact h1.symm
          · exact absurd h2 hrest
        subst he
        rw [List.foldl_cons, lookup_foldExts_not_mem hrest]
        exact dictLookup_insert_self acc.1 e pid

lemma lookup_foldClasses_not_claimed {ext : String} {l : List ParserVariant}
    (h : ∀ q ∈ l, ext ∉ q.exts) :
    ∀ acc, dictLookup ((l.foldl registerParserClass acc).1) ext =
      dictLookup acc.1 ext := by
  induction l with
  | nil => intro acc; rfl
  | cons q rest ih =>
      intro acc
      rw [List.foldl_cons,
        ih (fun r hr => h r (List.mem_cons_of_mem q hr))]
      exact lookup_foldExts_not_mem (h q (List.mem_cons_self q rest)) acc

lemma isSome_foldExts (pid : Nat) (exts : List String) (ext : String) :
    ∀ acc, (dictLookup acc.1 ext).isSome = true →
      (dictLookup ((exts.foldl (registerExt pid) acc).1) ext).isSome = true := by
  induction exts with
  | nil => intro acc h; exact h
  | cons e rest ih =>
      intro acc h
      rw [List.foldl_cons]
      exact ih _ (isSome_dictLookup_insert acc.1 ext e pid h)

lemma isSome_foldClasses (ext : String) (l : List ParserVariant) :
    ∀ acc, (dictLookup acc.1 ext).isSome = true →
      (dictLookup ((l.foldl registerParserClass acc).1) ext).isSome = true := by
  induction l with
  | nil => intro acc h; exact h
  | cons q rest ih =>
      intro acc h
      rw [List.foldl_cons]
      exact ih _ (isSome_foldExts q.pid q.exts ext acc h)

lemma warn_mem_registerExt {w : String} {acc} {pid : Nat} {ext : String}
    (h : w ∈ acc.2) : w ∈ (registerExt pid acc ext).2 := by
  unfold registerExt
  by_cases hc : (dictLookup acc.1 ext).isSome = true
  · simp [hc]; exact Or.inl h
  · simp [hc]; exact h

lemma warn_mem_foldExts {w : String} {pid : Nat} {exts : List String} :
    ∀ acc, w ∈ acc.2 → w ∈ (exts.foldl (registerExt pid) acc).2 := by
  induction exts with
  | nil => intro acc h; exact h
  | cons e rest ih =>
      intro acc h
      rw [List.foldl_cons]
      exact ih _ (warn_mem_registerExt h)

lemma warn_mem_foldClasses {w : String} {l : List ParserVariant} :
    ∀ acc, w ∈ acc.2 → w ∈ (l.foldl registerParserClass acc).2 := by
  induction l with
  | nil => intro acc h; exact h
  | cons q rest ih =>
      intro acc h
      rw [List.foldl_cons]
      exact ih _ (warn_mem_foldExts _ h)

lemma warn_foldExts_collision {pid : Nat} {exts : List String} {ext : String}
    (hmem : ext ∈ exts) :
    ∀ acc, (dictLookup acc.1 ext).isSome = true →
      collisionWarning ext ∈ (exts.foldl (registerExt pid) acc).2 := by
  induction exts with
  | nil => cases hmem
  | cons e rest ih =>
      intro acc hsome
      rcases List.mem_cons.mp hmem with he | hrest
      · subst he
        rw [List.foldl_cons]
        refine warn_mem_foldExts _ ?_
        simp [registerExt, hsome]
      · rw [List.foldl_cons]
        exact ih hrest _ (isSome_dictLookup_insert acc.1 ext e pid hsome)

lemma isSome_after_claiming_list {ext : String} {l : List ParserVariant}
    (h : ∃ q ∈ l, ext ∈ q.exts) :
    ∀ acc, (dictLookup ((l.foldl registerParserClass acc).1) ext).isSome = true := by
  induction l with
  | nil => obtain ⟨q, hq, _⟩ := h; cases hq
  | cons q rest ih =>
      intro acc
      obtain ⟨r, hr, hrext⟩ := h
      rcases List.mem_cons.mp hr with he | hrest
      · subst he
        rw [List.foldl_cons]
        refine isSome_foldClasses ext rest _ ?_
        unfold registerParserClass
        rw [lookup_foldExts_mem hrext acc]
        rfl
      · rw [List.foldl_cons]
        exact ih ⟨r, hrest, hrext⟩ _

/-- C4: registry construction maps each extension to the last-registered
variant claiming it — when a variant claims an extension and no later
variant claims it again, lookup returns that variant — and any collision
with an earlier claimant records the warning diagnostic, while construction
always completes (it is a total fold). -/
theorem claim_C4_registry_last_wins :
    ∀ (l1 l2 : List ParserVariant) (p : ParserVariant) (ext : String),
    ext ∈ p.exts →
    (∀ q ∈ l2, ext ∉ q.exts) →
    dictLookup (buildRegistry (l1 ++ p :: l2)).1 ext = some p.pid ∧
    ((∃ q ∈ l1, ext ∈ q.exts) →
      collisionWarning ext ∈ (buildRegistry (l1 ++ p :: l2)).2) := by
  intro l1 l2 p ext hp hl2
  have hsplit : buildRegistry (l1 ++ p :: l2) =
      l2.foldl registerParserClass
        (registerParserClass (l1.foldl registerParserClass ([], [])) p) := by
    unfold buildRegistry
    rw [List.foldl_append, List.foldl_cons]
  constructor
  · rw [hsplit, lookup_foldClasses_not_claimed hl2]
    exact lookup_foldExts_mem hp _
  · intro hclaim
    rw [hsplit]
    refine warn_mem_foldClasses _ ?_
    exact warn_foldExts_collision hp _ (isSome_after_claiming_list hclaim _)

/-- Witness for C4: two variants both claim the txt extension; the later one
wins lookup and the collision warning is recorded. -/
theorem claim_C4_witness :
    dictLookup (buildRegistry [{ pid := 1, exts := [".txt"] },
      { pid := 2, exts := [".txt"] }]).1 ".txt" = some 2 ∧
    collisionWarning ".txt" ∈ (buildRegistry [{ pid := 1, exts := [".txt"] },
      { pid := 2, exts := [".txt"] }]).2 := by
  have h := claim_C4_registry_last_wins [{ pid := 1, exts := [".txt"] }] []
    { pid := 2, exts := [".txt"] } ".txt" (by simp) (by simp)
  exact ⟨h.1, h.2 ⟨{ pid := 1, exts := [".txt"] }, by simp, by simp⟩⟩

/-- A directory fixture for source resolution: a README file without a dot
in its name, an ordinary text file, and a subdirectory with a dotted name. -/
def fsB : FileSystem :=
  [(["data"], FSEntry.dir),
   (["data", "README"], FSEntry.file (asciiBytes "plain readme")),
   (["data", "a.txt"], FSEntry.file (asciiBytes "Alpha")),
   (["data", "v1.0"], FSEntry.dir)]

/-- Counterexample to C5: `README` is an existing regular file under the
source directory, yet resolution does not yield it, and the directory
`v1.0` is yielded even though it is not a file — so resolution yields
neither every file nor files only. -/
theorem claim_C5_counterexample :
    fsLookup fsB ["data", "README"] =
      some (FSEntry.file (asciiBytes "plain readme")) ∧
    fsLookup fsB ["data", "v1.0"] = some FSEntry.dir ∧
    candidateFiles fsB ["data"] = some [["data", "a.txt"], ["data", "v1.0"]] ∧
    (["data", "README"] ∈ [["data", "a.txt"], ["data", "v1.0"]] → False) := by
  decide

/-- C5 as amended: a single existing file resolves to exactly itself; a
directory resolves to exactly the entries — regular files and directories
alike — lying strictly below it whose final name contains a dot, so entries
without a dot in the name are excluded; a missing location resolves to the
fatal NotFound outcome. -/
theorem claim_C5_amended_resolution :
    (∀ (fs : FileSystem) (url : FsPath) (bs : List Nat),
      fsLookup fs url = some (FSEntry.file bs) →
      candidateFiles fs url = some [url]) ∧
    (∀ (fs : FileSystem) (url : FsPath),
      fsLookup fs url = some FSEntry.dir →
      ∃ files, candidateFiles fs url = some files ∧
        ∀ p, p ∈ files ↔
          ((∃ e, (p, e) ∈ fs) ∧ strictlyUnder url p = true ∧
            nameHasDot p = true)) ∧
    (∀ (fs : FileSystem) (url : FsPath),
      fsLookup fs url = none → candidateFiles fs url = none) := by
  refine ⟨?_, ?_, ?_⟩
  · intro fs url bs h
    simp [candidateFiles, h]
  · intro fs url h
    refine ⟨rglobStarDotStar fs url, by simp [candidateFiles, h], ?_⟩
    intro p
    simp only [rglobStarDotStar, List.mem_map, List.mem_filter]
    constructor
    · rintro ⟨⟨p1, e⟩, ⟨hmem, hq⟩, rfl⟩
      rcases (Bool.and_eq_true _ _).mp hq with ⟨h1, h2⟩
      exact ⟨⟨e, hmem⟩, h1, h2⟩
    · rintro ⟨⟨e, hmem⟩, h1, h2⟩
      exact ⟨(p, e), ⟨hmem, by simp [h1, h2]⟩, rfl⟩
  · intro fs url h
    simp [candidateFiles, h]

/-- Witness for the amended C5 at a concrete single-file source. -/
theorem claim_C5_witness :
    candidateFiles [(["f.txt"], FSEntry.file [])] ["f.txt"] =
      some [["f.txt"]] :=
  claim_C5_amended_resolution.1 [(["f.txt"], FSEntry.file [])] ["f.txt"] []
    (by decide)

/-- Counterexample to C9: the fixture run is non-fatal and makes per-file
attempts — three failures are logged, and with created = 0 the claim would
demand a JobRun updated to a FAILED terminal state — yet the JobRun table
is exactly as empty after the run as before it: no JobRun record is created
at orchestration start, contradicting the claim that every non-fatal run
creates exactly one. -/
theorem claim_C9_counterexample :
    runA.fatal = none ∧ failedCount runA = 3 ∧ runA.created = 0 ∧
    dbA.jobRuns = [] ∧ runA.jobRuns = [] := by decide


lemma ingest_jobRuns_eq (parsers : List ParserVariant) (codecs : CodecOracle)
    (detect : DetectOracle) (db : Db) (fs : FileSystem) (sid : Nat) :
    (ingest_source parsers codecs detect db fs sid).jobRuns = db.jobRuns := by
  unfold ingest_source
  cases get_source db sid with
  | none => rfl
  | some src =>
      cases hreg : (buildRegistry parsers).1.isEmpty with
      | true => simp [hreg]
      | false =>
          cases hc : candidateFiles fs src.url with
          | none => simp [hreg, hc]
          | some files => simp [hreg, hc]

/-- C9 as amended: the orchestrator never creates or updates any JobRun
record — the JobRun persistence operations exist in `crud.py` but are not
invoked by `ingest_source`, so the JobRun table is unchanged by every run
and no terminal status is computed. -/
theorem claim_C9_amended_no_jobrun :
    ∀ (parsers : List ParserVariant) (codecs : CodecOracle)
      (detect : DetectOracle) (db : Db) (fs : FileSystem) (sid : Nat),
    (ingest_source parsers codecs detect db fs sid).jobRuns = db.jobRuns :=
  fun parsers codecs detect db fs sid =>
    ingest_jobRuns_eq parsers codecs detect db fs sid


/-- The database state after a run, re-ingested by a second invocation. -/
def rerunDb (db : Db) (r : RunResult) : Db :=
  { sources := db.sources, articles := r.articles, jobRuns := r.jobRuns }

lemma subscript_metadata_error (p : ParsedArticle) :
    p.subscript "metadata" = Except.error "KeyError: metadata" := rfl

lemma buildAndSave_error (arts : List Article) (srcId : Nat) (key : String)
    (parsed : ParsedArticle) :
    buildAndSave arts srcId key parsed =
      Except.error "KeyError: metadata" := rfl

lemma tryParseAndSave_is_error (codecs : CodecOracle) (detect : DetectOracle)
    (fs : FileSystem) (srcId : Nat) (arts : List Article) (path : FsPath) :
    ∃ e, tryParseAndSave codecs detect fs srcId arts path = Except.error e := by
  cases hr : readFileBytes fs path with
  | error e => exact ⟨e, by unfold tryParseAndSave; simp [hr]⟩
  | ok raw =>
      cases hp : TextParser.parse codecs detect (pathName path)
          (pyStem (pathName path)) raw with
      | error e => exact ⟨e, by unfold tryParseAndSave; simp [hr, hp]⟩
      | ok parsed =>
          exact ⟨"KeyError: metadata", by
            unfold tryParseAndSave
            simp [hr, hp, buildAndSave_error]⟩

lemma processFile_articles_eq (codecs : CodecOracle) (detect : DetectOracle)
    (registry : List (String × Nat)) (fs : FileSystem) (srcId : Nat)
    (s : LoopState) (path : FsPath) :
    (processFile codecs detect registry fs srcId s path).articles =
      s.articles := by
  cases hd : dictLookup registry (extKey path) with
  | none => rw [processFile_unsupported hd]
  | some pid =>
      cases ha : get_article_by_source_url s.articles (pathStr path) with
      | some a => rw [processFile_duplicate hd ha]
      | none =>
          obtain ⟨e, he⟩ :=
            tryParseAndSave_is_error codecs detect fs srcId s.articles path
          rw [processFile_failed hd ha he]

lemma processFile_created_eq (codecs : CodecOracle) (detect : DetectOracle)
    (registry : List (String × Nat)) (fs : FileSystem) (srcId : Nat)
    (s : LoopState) (path : FsPath) :
    (processFile codecs detect registry fs srcId s path).created =
      s.created := by
  cases hd : dictLookup registry (extKey path) with
  | none => rw [processFile_unsupported hd]
  | some pid =>
      cases ha : get_article_by_source_url s.articles (pathStr path) with
      | some a => rw [processFile_duplicate hd ha]
      | none =>
          obtain ⟨e, he⟩ :=
            tryParseAndSave_is_error codecs detect fs srcId s.articles path
          rw [processFile_failed hd ha he]

lemma processFiles_articles_eq (codecs : CodecOracle) (detect : DetectOracle)
    (registry : List (String × Nat)) (fs : FileSystem) (srcId : Nat) :
    ∀ (files : List FsPath) (s : LoopState),
    (processFiles codecs detect registry fs srcId s files).articles =
      s.articles := by
  intro files
  induction files with
  | nil => intro s; rfl
  | cons q rest ih =>
      intro s
      rw [processFiles_cons, ih, processFile_articles_eq]

lemma processFiles_created_eq (codecs : CodecOracle) (detect : DetectOracle)
    (registry : List (String × Nat)) (fs : FileSystem) (srcId : Nat) :
    ∀ (files : List FsPath) (s : LoopState),
    (processFiles codecs detect registry fs srcId s files).created =
      s.created := by
  intro files
  induction files with
  | nil => intro s; rfl
  | cons q rest ih =>
      intro s
      rw [processFiles_cons, ih, processFile_created_eq]

lemma ingest_articles_eq (parsers : List ParserVariant) (codecs : CodecOracle)
    (detect : DetectOracle) (db : Db) (fs : FileSystem) (sid : Nat) :
    (ingest_source parsers codecs detect db fs sid).articles = db.articles := by
  unfold ingest_source
  cases get_source db sid with
  | none => rfl
  | some src =>
      cases hreg : (buildRegistry parsers).1.isEmpty with
      | true => simp [hreg]
      | false =>
          cases hc : candidateFiles fs src.url with
          | none => simp [hreg, hc]
          | some files => simp [hreg, hc, processFiles_articles_eq]

lemma ingest_created_zero (parsers : List ParserVariant) (codecs : CodecOracle)
    (detect : DetectOracle) (db : Db) (fs : FileSystem) (sid : Nat) :
    (ingest_source parsers codecs detect db fs sid).created = 0 := by
  unfold ingest_source
  cases get_source db sid with
  | none => rfl
  | some src =>
      cases hreg : (buildRegistry parsers).1.isEmpty with
      | true => simp [hreg]
      | false =>
          cases hc : candidateFiles fs src.url with
          | none => simp [hreg, hc]
          | some files => simp [hreg, hc, processFiles_created_eq]

lemma rerunDb_eq_self (parsers : List ParserVariant) (codecs : CodecOracle)
    (detect : DetectOracle) (db : Db) (fs : FileSystem) (sid : Nat) :
    rerunDb db (ingest_source parsers codecs detect db fs sid) = db := by
  unfold rerunDb
  rw [ingest_articles_eq, ingest_jobRuns_eq]

/-- C2: re-running ingest for the same source over an unchanged filesystem
is idempotent, and degenerately so: because the article construction of
step 4d always raises (the `metadata` subscript) and step 4e would raise a
TypeError besides, no run ever inserts an Article, so the database after a
run equals the database before it and the second run is identical to the
first.  In particular the second run creates zero new Articles, its stored
Articles equal those after the first run, and — when the first run skipped
nothing — it reports skipped equal to the number of Articles the first run
created, both being zero. -/
theorem claim_C2_idempotent_rerun :
    ∀ (parsers : List ParserVariant) (codecs : CodecOracle)
      (detect : DetectOracle) (db : Db) (fs : FileSystem) (sid : Nat),
    (ingest_source parsers codecs detect
       (rerunDb db (ingest_source parsers codecs detect db fs sid)) fs sid =
       ingest_source parsers codecs detect db fs sid) ∧
    (ingest_source parsers codecs detect
       (rerunDb db (ingest_source parsers codecs detect db fs sid))
       fs sid).created = 0 ∧
    (ingest_source parsers codecs detect
       (rerunDb db (ingest_source parsers codecs detect db fs sid))
       fs sid).articles =
      (ingest_source parsers codecs detect db fs sid).articles ∧
    ((ingest_source parsers codecs detect db fs sid).skipped = 0 →
      (ingest_source parsers codecs detect
        (rerunDb db (ingest_source parsers codecs detect db fs sid))
        fs sid).skipped =
        (ingest_source parsers codecs detect db fs sid).created) := by
  intro parsers codecs detect db fs sid
  rw [rerunDb_eq_self]
  refine ⟨rfl, ingest_created_zero parsers codecs detect db fs sid, rfl, ?_⟩
  intro h
  rw [h, ingest_created_zero]

/-- Witness for C2 at the fixture: the first run skips nothing, and the
re-run over the unchanged fixture equals the first run, creating nothing
and skipping exactly as many Articles as the first run created. -/
theorem claim_C2_witness :
    runA.skipped = 0 ∧
    (ingest_source ALL_PARSERS codecs0 detect0 (rerunDb dbA runA)
      fsA 1).skipped = runA.created :=
  ⟨by decide,
   (claim_C2_idempotent_rerun ALL_PARSERS codecs0 detect0 dbA fsA 1).2.2.2
     (by decide)⟩
